import Mathlib

/-!
Shallow embedding of the Leveling Guide Generator frontend
(`src/frontend/src/api.ts` and the components in
`src/frontend/src/components/ResultsView.tsx`), together with a
spec-modelled view of the backend pipeline orchestrator, and proofs of the
behavioural properties stated for the system.

JavaScript strings are modelled as `String`, optional / possibly-`undefined`
fields as `Option String`, and the JavaScript `x || y` fallback on strings
(which treats `undefined`, `null` and `""` as falsy) as `jsOrElse`.
-/

namespace LevelingGuide

/-- The processing states of a Role, from `ProcessingStatus.status` in
`api.ts`: `'processing' | 'completed' | 'failed'`. -/
inductive RoleStatus where
  | processing
  | completed
  | failed
deriving DecidableEq, Repr

/-- `ProcessingStatus` from `api.ts` (lines 107-111): the body of a status
poll response.  `role_id` is declared `string` but the client guards it with
`||`, so it is modelled as possibly absent; `message` is declared optional. -/
structure ProcessingStatus where
  role_id : Option String
  status : RoleStatus
  message : Option String
deriving DecidableEq, Repr

/-- JavaScript `s || d` for a possibly-undefined string `s`: falls back to
`d` when `s` is `undefined`/`null` or the empty string. -/
def jsOrElse (s : Option String) (d : String) : String :=
  match s with
  | none => d
  | some v => if v = "" then d else v

/-- Outcome of the Promise returned by `waitForRole`: resolved with a grid,
rejected with an error message, or still pending (the finite trace of poll
responses ran out while the role was still `processing`). -/
inductive WaitOutcome (α : Type) where
  | resolved (grid : α)
  | rejected (msg : String)
  | pending
deriving DecidableEq, Repr

/-- Observable record of one run of the `waitForRole` polling loop:
its outcome, the role identifiers passed to `getRole`, the delays handed to
`setTimeout`, and the number of `getRoleStatus` calls made. -/
structure WaitTrace (α : Type) where
  outcome : WaitOutcome α
  fetches : List String
  delays : List Nat
  polls : Nat
deriving DecidableEq, Repr

/-- `waitForRole` from `api.ts` (lines 336-364), run against a finite trace
of successive `getRoleStatus` responses.  `getRole` abstracts the grid-fetch
endpoint.  On `completed` it fetches `status.role_id || roleId`; on `failed`
it rejects with `status.message || 'Role processing failed'`; otherwise it
schedules another poll after `pollInterval` milliseconds (default 2000). -/
def waitForRoleRun {α : Type} (getRole : String → α) (roleId : String)
    (pollInterval : Nat) : List ProcessingStatus → WaitTrace α
  | [] => ⟨WaitOutcome.pending, [], [], 0⟩
  | s :: rest =>
    match s.status with
    | RoleStatus.completed =>
        let finalRoleId := jsOrElse s.role_id roleId
        ⟨WaitOutcome.resolved (getRole finalRoleId), [finalRoleId], [], 1⟩
    | RoleStatus.failed =>
        ⟨WaitOutcome.rejected (jsOrElse s.message "Role processing failed"), [], [], 1⟩
    | RoleStatus.processing =>
        let t := waitForRoleRun getRole roleId pollInterval rest
        ⟨t.outcome, t.fetches, pollInterval :: t.delays, t.polls + 1⟩

/-- `waitForRole` with its default poll interval of 2000 ms. -/
def waitForRole {α : Type} (getRole : String → α) (roleId : String)
    (trace : List ProcessingStatus) : WaitTrace α :=
  waitForRoleRun getRole roleId 2000 trace

/-- The first terminal (`completed` or `failed`) response in a poll trace,
if any. -/
def firstTerminal : List ProcessingStatus → Option ProcessingStatus
  | [] => none
  | s :: rest =>
    match s.status with
    | RoleStatus.processing => firstTerminal rest
    | _ => some s

/-- Number of leading `processing` responses in a poll trace. -/
def leadingProcessing : List ProcessingStatus → Nat
  | [] => 0
  | s :: rest =>
    match s.status with
    | RoleStatus.processing => leadingProcessing rest + 1
    | _ => 0

/-- `Role` from `api.ts` (lines 48-55). -/
structure Role where
  id : String
  company_id : String
  name : String
  is_active : Bool
  created_at : String
  updated_at : String
deriving DecidableEq, Repr

/-- `Level` from `api.ts` (lines 57-66). -/
structure Level where
  id : String
  company_id : String
  role_id : String
  name : String
  order_idx : Int
  is_active : Bool
  created_at : String
  updated_at : String
deriving DecidableEq, Repr

/-- `Competency` from `api.ts` (lines 68-77). -/
structure Competency where
  id : String
  company_id : String
  role_id : String
  name : String
  order_idx : Int
  is_active : Bool
  created_at : String
  updated_at : String
deriving DecidableEq, Repr

/-- `Example` from `api.ts` (lines 79-89). -/
structure Example where
  id : String
  company_id : String
  role_id : String
  level_id : String
  competency_id : String
  content : String
  is_active : Bool
  created_at : String
  updated_at : String
deriving DecidableEq, Repr

/-- `DefinitionWithExamples` from `api.ts` (lines 91-99). -/
structure DefinitionWithExamples where
  id : String
  level_id : String
  level_name : String
  competency_id : String
  competency_name : String
  definition : String
  examples : List Example
deriving DecidableEq, Repr

/-- `RoleDetail` from `api.ts` (lines 101-105), with the fields it inherits
from `Role` flattened in. -/
structure RoleDetail where
  id : String
  company_id : String
  name : String
  is_active : Bool
  created_at : String
  updated_at : String
  levels : List Level
  competencies : List Competency
  definitions : List DefinitionWithExamples
deriving DecidableEq, Repr

/-! ## ResultsView grid rendering (`ResultsView.tsx` lines 157-221) -/

/-- The string key `` `${level_id}-${competency_id}` `` used both when
populating `definitionMap` and when looking a cell up. -/
def defKey (level_id competency_id : String) : String :=
  level_id ++ "-" ++ competency_id

/-- Lookup in the `definitionMap` built by
`role.definitions.forEach((def) => definitionMap.set(key, def))`: since
`Map.set` overwrites, a key maps to the LAST definition in the list whose
`defKey` equals it. -/
def definitionMapGet (defs : List DefinitionWithExamples) (key : String) :
    Option DefinitionWithExamples :=
  (defs.filter (fun d => defKey d.level_id d.competency_id = key)).getLast?

/-- Whether `defs` contains a definition for the (level id, competency id)
pair itself — the spec-level notion of "a definition exists for that pair". -/
def hasDefinitionFor (defs : List DefinitionWithExamples)
    (level_id competency_id : String) : Bool :=
  defs.any (fun d => d.level_id = level_id && d.competency_id = competency_id)

/-- What one grid cell renders: either the "No data" placeholder, or the
definition text together with the "`n` examples" expand hint, which is shown
only when the examples list is non-empty (`definition.examples.length > 0`). -/
inductive CellView where
  | noData
  | cell (requirement : String) (examplesHint : Option Nat)
deriving DecidableEq, Repr

/-- The body of the cell renderer in `ResultsView` (lines 194-219): look the
definition up in `definitionMap` under `` `${level.id}-${comp.id}` ``; if
absent render "No data", otherwise render the definition text plus the
examples hint when `examples.length > 0`. -/
def renderCell (role : RoleDetail) (level : Level) (comp : Competency) :
    CellView :=
  match definitionMapGet role.definitions (defKey level.id comp.id) with
  | none => CellView.noData
  | some d =>
      CellView.cell d.definition
        (if 0 < d.examples.length then some d.examples.length else none)

/-! ## ResultsView modal navigation (`ResultsView.tsx` lines 51-110) -/

/-- The `ModalData` state of `ResultsView` (lines 6-12). -/
structure ModalData where
  definition : DefinitionWithExamples
  levelName : String
  competencyName : String
  levelIdx : Nat
  compIdx : Nat
deriving DecidableEq, Repr

/-- The direction argument of `navigateModal`. -/
inductive NavDirection where
  | prev
  | next
deriving DecidableEq, Repr

/-- `openModal` (lines 51-60): stores exactly the definition and position it
was invoked with. -/
def openModal (definition : DefinitionWithExamples)
    (levelName competencyName : String) (levelIdx compIdx : Nat) : ModalData :=
  ⟨definition, levelName, competencyName, levelIdx, compIdx⟩

/-- The index arithmetic of `navigateModal` (lines 74-92).  The source uses
JavaScript numbers and only ever decrements below zero starting from zero,
so the `prev` branch tests for zero before subtracting on `Nat`. -/
def navStep (numLevels numComps : Nat) (levelIdx compIdx : Nat) :
    NavDirection → Nat × Nat
  | NavDirection.next =>
      if numLevels ≤ levelIdx + 1 then
        (0, if numComps ≤ compIdx + 1 then 0 else compIdx + 1)
      else
        (levelIdx + 1, compIdx)
  | NavDirection.prev =>
      if levelIdx = 0 then
        (numLevels - 1, if compIdx = 0 then numComps - 1 else compIdx - 1)
      else
        (levelIdx - 1, compIdx)

/-- `role.definitions.find(d => d.level_id === ... && d.competency_id === ...)`
as used by `navigateModal` (lines 96-98): the FIRST matching definition. -/
def findDefinition (defs : List DefinitionWithExamples)
    (level_id competency_id : String) : Option DefinitionWithExamples :=
  defs.find? (fun d => d.level_id = level_id && d.competency_id = competency_id)

/-- The target position `navigateModal` computes from the current modal. -/
def navTarget (role : RoleDetail) (m : ModalData) (dir : NavDirection) :
    Nat × Nat :=
  navStep role.levels.length role.competencies.length m.levelIdx m.compIdx dir

/-- `navigateModal` (lines 67-110): compute the new position, read the level
and competency at it, and update the modal only when a definition exists for
the target pair; otherwise the modal state is left unchanged.  `none` models
the TypeError JavaScript would raise when an index is out of range (the
source indexes the arrays unconditionally). -/
def navigateModal (role : RoleDetail) (m : ModalData) (dir : NavDirection) :
    Option ModalData :=
  match role.levels.get? (navTarget role m dir).1,
        role.competencies.get? (navTarget role m dir).2 with
  | some newLevel, some newComp =>
      match findDefinition role.definitions newLevel.id newComp.id with
      | some newDef =>
          some ⟨newDef, newLevel.name, newComp.name,
            (navTarget role m dir).1, (navTarget role m dir).2⟩
      | none => some m
  | _, _ => none

/-! ## Dashboard (`ResultsView.tsx` Dashboard component) -/

/-- `Nudge.status` values from `api.ts` (line 41). -/
inductive NudgeStatus where
  | pending
  | fulfilled
  | dismissed
deriving DecidableEq, Repr

/-- `Nudge` from `api.ts` (lines 35-46). -/
structure Nudge where
  id : String
  employee_id : String
  company_id : String
  role_name : String
  level_name : Option String
  status : NudgeStatus
  is_active : Bool
  created_at : String
  updated_at : String
  employee_name : Option String
deriving DecidableEq, Repr

/-- `roles.filter(r => r.is_active)` — the `activeRoles` the Dashboard
renders as the leveling-guides list. -/
def activeRoles (roles : List Role) : List Role :=
  roles.filter (fun r => r.is_active)

/-- The Dashboard's local state touched by `handleNudgeAction`. -/
structure DashboardState where
  nudges : List Nudge
  error : Option String
deriving DecidableEq, Repr

/-- The optimistic local update in `handleNudgeAction`:
`prev.map(n => n.id === nudgeId ? \x7b ...n, status \x7d : n)`. -/
def updateNudgeList (nudges : List Nudge) (nudgeId : String)
    (status : NudgeStatus) : List Nudge :=
  nudges.map (fun n => if n.id = nudgeId then { n with status := status } else n)

/-- `handleNudgeAction` (lines 630-637): when the PATCH request succeeds
(`ok = true`) the nudge list is remapped and the error is untouched; when it
fails only the error message is set. -/
def handleNudgeAction (ok : Bool) (st : DashboardState) (nudgeId : String)
    (status : NudgeStatus) : DashboardState :=
  if ok then
    { st with nudges := updateNudgeList st.nudges nudgeId status }
  else
    { st with error := some "Failed to update request" }

/-! ## UploadForm (`ResultsView.tsx` UploadForm component) -/

/-- `RoleExistsCheck` from `api.ts` (lines 257-261).  The TypeScript field
`exists` is a Lean keyword, so it is called `exists_` here. -/
structure RoleExistsCheck where
  exists_ : Bool
  role_id : Option String
  created_at : Option String
deriving DecidableEq, Repr

/-- The `status` values of the UploadForm (`type Status` in the source).
The TypeScript value `'error'` is called `errored` here since `error` is the
name of the separate error-message field. -/
inductive FormStatus where
  | idle
  | uploading
  | processing
  | errored
deriving DecidableEq, Repr

/-- The UploadForm local state read and written by `handleSubmit` and
`doUpload`.  A present file is modelled by `some` of its name. -/
structure UploadFormState where
  file : Option String
  companyUrl : String
  roleName : String
  status : FormStatus
  error : Option String
  showConfirmOverwrite : Bool
  existingRoleDate : Option String
deriving DecidableEq, Repr

/-- The synchronous prefix of `doUpload` (lines 406-410), up to and including
the point where the `createRole` upload request is issued: it hides the
confirmation box, moves to `uploading` and clears the error. -/
def doUploadStart (st : UploadFormState) : UploadFormState :=
  { st with showConfirmOverwrite := false
            status := FormStatus.uploading
            error := none }

/-- `handleSubmit` (lines 426-448), parametrised by the result of the
`checkRoleExists` request (`Except.error` models the catch branch, where the
form logs a warning and continues anyway).  Returns the new form state and
whether the `createRole` upload request was issued. -/
def handleSubmit (st : UploadFormState) (check : Except Unit RoleExistsCheck) :
    UploadFormState × Bool :=
  if st.file = none ∨ st.companyUrl = "" ∨ st.roleName = "" then
    ({ st with error := some "Please fill in all fields and upload a file" },
     false)
  else
    match check with
    | Except.ok c =>
        if c.exists_ then
          ({ st with existingRoleDate := c.created_at
                     showConfirmOverwrite := true },
           false)
        else
          (doUploadStart st, true)
    | Except.error _ => (doUploadStart st, true)

/-- The onClick handler of the "Yes, Replace It" confirmation button
(line 532): it calls `doUpload` directly, issuing the upload. -/
def confirmOverwriteClick (st : UploadFormState) : UploadFormState × Bool :=
  (doUploadStart st, true)

/-- The date text of the overwrite-confirmation prompt (line 528):
`existingRoleDate ? new Date(existingRoleDate).toLocaleDateString()
: 'a previous date'`, with locale date formatting abstracted as `fmtDate`. -/
def overwritePromptDate (fmtDate : String → String)
    (existingRoleDate : Option String) : String :=
  match existingRoleDate with
  | some d => fmtDate d
  | none => "a previous date"

/-! ## Spec-modelled backend pieces (the backend is not under `src/`) -/

/-- Modelled from the spec: the backend check-existence endpoint, missing
from `src/` (only its client `checkRoleExists` in `api.ts` is present).
"Given a role name, returns whether an active Role exists and its creation
time", together with the identifier fields of `RoleExistsCheck`. -/
def checkRoleExistsBackend (roles : List Role) (roleName : String) :
    RoleExistsCheck :=
  match roles.find? (fun r => r.is_active && r.name = roleName) with
  | some r => ⟨true, some r.id, some r.created_at⟩
  | none => ⟨false, none, none⟩

/-- Whether a status is terminal (`completed` or `failed`). -/
def isTerminal : RoleStatus → Bool
  | RoleStatus.processing => false
  | _ => true

/-- Outcome of one run of the pipeline: either the grid was produced and
every cell attempted, or the Extractor / Structure Parser raised a terminal
error. -/
inductive PipelineOutcome where
  | success
  | terminalError
deriving DecidableEq, Repr

/-- Modelled from the spec: the Pipeline Orchestrator's writes to the Role
`status` field, missing from `src/` (only the `ProcessingStatus` client type
is present).  "`processing` is the initial state set synchronously at Role
creation"; the orchestrator then performs exactly one terminal write —
`completed` on success, `failed` when the Extractor or Structure Parser
raises a terminal error. -/
def orchestratorStatusWrites : PipelineOutcome → List RoleStatus
  | PipelineOutcome.success => [RoleStatus.processing, RoleStatus.completed]
  | PipelineOutcome.terminalError => [RoleStatus.processing, RoleStatus.failed]

/-- Monotonicity of a sequence of status writes: no write after a terminal
one goes back to `processing`. -/
def statusMonotone (writes : List RoleStatus) : Prop :=
  ∀ i j, i < j → ∀ hi : i < writes.length, ∀ hj : j < writes.length,
    isTerminal (writes.get ⟨i, hi⟩) = true →
      writes.get ⟨j, hj⟩ ≠ RoleStatus.processing

/-! ## Characterisation of the `waitForRole` polling loop -/

theorem waitForRoleRun_outcome_eq {α : Type} (getRole : String → α)
    (roleId : String) (k : Nat) (trace : List ProcessingStatus) :
    (waitForRoleRun getRole roleId k trace).outcome =
      match firstTerminal trace with
      | none => WaitOutcome.pending
      | some s =>
        match s.status with
        | RoleStatus.completed =>
            WaitOutcome.resolved (getRole (jsOrElse s.role_id roleId))
        | _ => WaitOutcome.rejected (jsOrElse s.message "Role processing failed") := by
  induction trace with
  | nil => rfl
  | cons s rest ih =>
      cases hs : s.status <;>
        simp [waitForRoleRun, firstTerminal, hs, ih]

theorem waitForRoleRun_fetches_eq {α : Type} (getRole : String → α)
    (roleId : String) (k : Nat) (trace : List ProcessingStatus) :
    (waitForRoleRun getRole roleId k trace).fetches =
      match firstTerminal trace with
      | none => []
      | some s =>
        match s.status with
        | RoleStatus.completed => [jsOrElse s.role_id roleId]
        | _ => [] := by
  induction trace with
  | nil => rfl
  | cons s rest ih =>
      cases hs : s.status <;>
        simp [waitForRoleRun, firstTerminal, hs, ih]

theorem waitForRoleRun_delays_eq {α : Type} (getRole : String → α)
    (roleId : String) (k : Nat) (trace : List ProcessingStatus) :
    (waitForRoleRun getRole roleId k trace).delays =
      List.replicate (leadingProcessing trace) k := by
  induction trace with
  | nil => rfl
  | cons s rest ih =>
      cases hs : s.status <;>
        simp [waitForRoleRun, leadingProcessing, hs, ih, List.replicate_succ]

theorem waitForRoleRun_polls_eq {α : Type} (getRole : String → α)
    (roleId : String) (k : Nat) (trace : List ProcessingStatus) :
    (waitForRoleRun getRole roleId k trace).polls =
      min trace.length (leadingProcessing trace + 1) := by
  induction trace with
  | nil => rfl
  | cons s rest ih =>
      cases hs : s.status <;>
        simp [waitForRoleRun, leadingProcessing, hs, ih]
      omega

/-- C1: `waitForRole` resolves with the full grid (`getRole` of some
identifier) exactly when a status poll returns state `completed`, and the
identifier it fetches is the `role_id` carried in the status response,
falling back to the originally supplied `roleId` only when the response
carries no identifier (absent or empty `role_id`). -/
theorem waitForRole_completed_resolves_with_status_role_id {α : Type}
    (getRole : String → α) (roleId : String) (trace : List ProcessingStatus)
    (g : α) :
    ((waitForRole getRole roleId trace).outcome = WaitOutcome.resolved g ↔
       ∃ s, firstTerminal trace = some s ∧ s.status = RoleStatus.completed ∧
         g = getRole (jsOrElse s.role_id roleId)) ∧
    (∀ s, firstTerminal trace = some s → s.status = RoleStatus.completed →
       (waitForRole getRole roleId trace).fetches =
         [jsOrElse s.role_id roleId]) ∧
    (∀ v : String, v ≠ "" → jsOrElse (some v) roleId = v) ∧
    jsOrElse none roleId = roleId ∧
    jsOrElse (some "") roleId = roleId := by
  refine ⟨?_, ?_, ?_, rfl, rfl⟩
  · rw [waitForRole, waitForRoleRun_outcome_eq]
    cases ht : firstTerminal trace with
    | none => simp
    | some s =>
        cases hs : s.status with
        | processing => simp [hs]
        | completed => simp [hs, eq_comm]
        | failed => simp [hs]
  · intro s ht hs
    rw [waitForRole, waitForRoleRun_fetches_eq, ht]
    simp [hs]
  · intro v hv
    simp [jsOrElse, hv]

/-- Witness for C1: a trace that polls `processing` once and then observes
`completed` carrying the recreated identifier `"new"`; the grid is fetched
under `"new"`, not under the original `"orig"`. -/
theorem waitForRole_completed_witness :
    (waitForRole (fun s => s) "orig"
      [⟨none, RoleStatus.processing, none⟩,
       ⟨some "new", RoleStatus.completed, none⟩]).fetches = ["new"] ∧
    (waitForRole (fun s => s) "orig"
      [⟨none, RoleStatus.processing, none⟩,
       ⟨some "new", RoleStatus.completed, none⟩]).outcome =
      WaitOutcome.resolved "new" := by
  have h := waitForRole_completed_resolves_with_status_role_id
    (fun s : String => s) "orig"
    [⟨none, RoleStatus.processing, none⟩,
     ⟨some "new", RoleStatus.completed, none⟩] "new"
  constructor
  · have hf := h.2.1 ⟨some "new", RoleStatus.completed, none⟩ rfl rfl
    simpa [jsOrElse] using hf
  · exact h.1.mpr
      ⟨⟨some "new", RoleStatus.completed, none⟩, rfl, rfl, by simp [jsOrElse]⟩

/-- C2: when a status poll returns state `failed`, `waitForRole` rejects
with the message from the status response, falling back to the fixed text
"Role processing failed" when the response carries no message, and it never
calls `getRole` in that case. -/
theorem waitForRole_failed_rejects_without_fetch {α : Type}
    (getRole : String → α) (roleId : String) (trace : List ProcessingStatus) :
    ∀ s, firstTerminal trace = some s → s.status = RoleStatus.failed →
      (waitForRole getRole roleId trace).outcome =
        WaitOutcome.rejected (jsOrElse s.message "Role processing failed") ∧
      (waitForRole getRole roleId trace).fetches = [] ∧
      (∀ v : String, s.message = some v → v ≠ "" →
        jsOrElse s.message "Role processing failed" = v) ∧
      (s.message = none →
        jsOrElse s.message "Role processing failed" = "Role processing failed") := by
  intro s ht hs
  refine ⟨?_, ?_, ?_, ?_⟩
  · rw [waitForRole, waitForRoleRun_outcome_eq, ht]
    simp [hs]
  · rw [waitForRole, waitForRoleRun_fetches_eq, ht]
    simp [hs]
  · intro v hv hne
    simp [jsOrElse, hv, hne]
  · intro hv
    simp [jsOrElse, hv]

/-- Witness for C2: a trace whose first terminal poll is `failed` with
message `"boom"`; the promise rejects with `"boom"` and no grid fetch is
made. -/
theorem waitForRole_failed_witness :
    (waitForRole (fun s => s) "orig"
      [⟨none, RoleStatus.processing, none⟩,
       ⟨some "r2", RoleStatus.failed, some "boom"⟩]).outcome =
      WaitOutcome.rejected "boom" ∧
    (waitForRole (fun s => s) "orig"
      [⟨none, RoleStatus.processing, none⟩,
       ⟨some "r2", RoleStatus.failed, some "boom"⟩]).fetches = [] := by
  have h := waitForRole_failed_rejects_without_fetch
    (fun s : String => s) "orig"
    [⟨none, RoleStatus.processing, none⟩,
     ⟨some "r2", RoleStatus.failed, some "boom"⟩]
    ⟨some "r2", RoleStatus.failed, some "boom"⟩ rfl rfl
  exact ⟨by simpa [jsOrElse] using h.1, h.2.1⟩

/-- C3: the polling loop schedules one re-poll, always after exactly
`pollInterval` milliseconds (default 2000), for every non-terminal
(`processing`) observation, and performs no further status poll after the
first terminal observation. -/
theorem waitForRole_fixed_interval_polling {α : Type} (getRole : String → α)
    (roleId : String) (pollInterval : Nat) (trace : List ProcessingStatus) :
    (waitForRoleRun getRole roleId pollInterval trace).delays =
      List.replicate (leadingProcessing trace) pollInterval ∧
    (∀ d ∈ (waitForRoleRun getRole roleId pollInterval trace).delays,
      d = pollInterval) ∧
    (waitForRole getRole roleId trace).delays =
      List.replicate (leadingProcessing trace) 2000 ∧
    (waitForRoleRun getRole roleId pollInterval trace).polls =
      min trace.length (leadingProcessing trace + 1) := by
  refine ⟨waitForRoleRun_delays_eq getRole roleId pollInterval trace, ?_,
    waitForRoleRun_delays_eq getRole roleId 2000 trace,
    waitForRoleRun_polls_eq getRole roleId pollInterval trace⟩
  intro d hd
  rw [waitForRoleRun_delays_eq] at hd
  exact List.eq_of_mem_replicate hd

/-- Witness for C3: two `processing` polls followed by `completed` schedule
exactly two re-polls of 2000 ms each and make exactly three status polls. -/
theorem waitForRole_fixed_interval_witness :
    (waitForRole (fun s => s) "r"
      [⟨none, RoleStatus.processing, none⟩,
       ⟨none, RoleStatus.processing, none⟩,
       ⟨some "r", RoleStatus.completed, none⟩]).delays = [2000, 2000] ∧
    (waitForRole (fun s => s) "r"
      [⟨none, RoleStatus.processing, none⟩,
       ⟨none, RoleStatus.processing, none⟩,
       ⟨some "r", RoleStatus.completed, none⟩]).polls = 3 := by
  have h := waitForRole_fixed_interval_polling (fun s : String => s) "r" 2000
    [⟨none, RoleStatus.processing, none⟩,
     ⟨none, RoleStatus.processing, none⟩,
     ⟨some "r", RoleStatus.completed, none⟩]
  exact ⟨by simpa [leadingProcessing] using h.2.2.1,
    by simpa [leadingProcessing] using h.2.2.2⟩

/-- C4: the Role processing status is monotonic — every sequence of status
writes performed by the (spec-modelled) pipeline starts with the initial
state `processing` set at Role creation, and no write moves a Role from a
terminal state (`completed` or `failed`) back to `processing`. -/
theorem orchestrator_status_monotone (o : PipelineOutcome) :
    (orchestratorStatusWrites o).head? = some RoleStatus.processing ∧
    statusMonotone (orchestratorStatusWrites o) := by
  constructor
  · cases o <;> rfl
  · intro i j hij hi hj hterm
    cases o with
    | success =>
        have hj2 : j < 2 := by simpa [orchestratorStatusWrites] using hj
        have hi0 : i = 0 := by omega
        subst hi0
        simp [orchestratorStatusWrites, isTerminal] at hterm
    | terminalError =>
        have hj2 : j < 2 := by simpa [orchestratorStatusWrites] using hj
        have hi0 : i = 0 := by omega
        subst hi0
        simp [orchestratorStatusWrites, isTerminal] at hterm

/-- Witness for C4: the successful pipeline run writes
`[processing, completed]`, whose second write is not `processing` even
though monotonicity is asked about every pair of positions. -/
theorem orchestrator_status_monotone_witness :
    (orchestratorStatusWrites PipelineOutcome.success).head? =
      some RoleStatus.processing ∧
    (orchestratorStatusWrites PipelineOutcome.terminalError).head? =
      some RoleStatus.processing := by
  exact ⟨(orchestrator_status_monotone PipelineOutcome.success).1,
    (orchestrator_status_monotone PipelineOutcome.terminalError).1⟩

/-- C8: the dashboard's leveling-guides list contains exactly the roles
whose `is_active` flag is true — a role deactivated by re-upload is excluded
and every active role appears. -/
theorem activeRoles_mem_iff (roles : List Role) (r : Role) :
    r ∈ activeRoles roles ↔ r ∈ roles ∧ r.is_active = true := by
  simp [activeRoles]

/-- Witness for C8: with one active and one inactive role, only the active
one is listed. -/
theorem activeRoles_mem_iff_witness :
    (⟨"r1", "c", "Engineer", true, "t0", "t0"⟩ : Role) ∈
      activeRoles [⟨"r1", "c", "Engineer", true, "t0", "t0"⟩,
        ⟨"r0", "c", "Engineer", false, "t0", "t0"⟩] ∧
    ¬ (⟨"r0", "c", "Engineer", false, "t0", "t0"⟩ : Role) ∈
      activeRoles [⟨"r1", "c", "Engineer", true, "t0", "t0"⟩,
        ⟨"r0", "c", "Engineer", false, "t0", "t0"⟩] := by
  constructor
  · exact (activeRoles_mem_iff
      [⟨"r1", "c", "Engineer", true, "t0", "t0"⟩,
       ⟨"r0", "c", "Engineer", false, "t0", "t0"⟩]
      ⟨"r1", "c", "Engineer", true, "t0", "t0"⟩).mpr (by simp)
  · intro hmem
    have h := (activeRoles_mem_iff
      [⟨"r1", "c", "Engineer", true, "t0", "t0"⟩,
       ⟨"r0", "c", "Engineer", false, "t0", "t0"⟩]
      ⟨"r0", "c", "Engineer", false, "t0", "t0"⟩).mp hmem
    simp at h

/-- C10: updating one nudge's status changes only that nudge — on success
the nudge at each position with the matching id is replaced by a copy
differing only in its `status` field and every other nudge is unchanged,
with the error untouched; on request failure the list is unchanged and only
the error message is set. -/
theorem handleNudgeAction_frame (st : DashboardState) (nudgeId : String)
    (status : NudgeStatus) :
    (handleNudgeAction true st nudgeId status).nudges.length =
      st.nudges.length ∧
    (∀ i, ∀ hi : i < st.nudges.length,
      ∀ hi' : i < (handleNudgeAction true st nudgeId status).nudges.length,
      (st.nudges.get ⟨i, hi⟩).id = nudgeId →
        (handleNudgeAction true st nudgeId status).nudges.get ⟨i, hi'⟩ =
          { st.nudges.get ⟨i, hi⟩ with status := status }) ∧
    (∀ i, ∀ hi : i < st.nudges.length,
      ∀ hi' : i < (handleNudgeAction true st nudgeId status).nudges.length,
      (st.nudges.get ⟨i, hi⟩).id ≠ nudgeId →
        (handleNudgeAction true st nudgeId status).nudges.get ⟨i, hi'⟩ =
          st.nudges.get ⟨i, hi⟩) ∧
    (∀ n : Nudge, ({ n with status := status } : Nudge).id = n.id ∧
      ({ n with status := status } : Nudge).employee_id = n.employee_id ∧
      ({ n with status := status } : Nudge).company_id = n.company_id ∧
      ({ n with status := status } : Nudge).role_name = n.role_name ∧
      ({ n with status := status } : Nudge).level_name = n.level_name ∧
      ({ n with status := status } : Nudge).is_active = n.is_active ∧
      ({ n with status := status } : Nudge).created_at = n.created_at ∧
      ({ n with status := status } : Nudge).updated_at = n.updated_at ∧
      ({ n with status := status } : Nudge).employee_name = n.employee_name ∧
      ({ n with status := status } : Nudge).status = status) ∧
    (handleNudgeAction true st nudgeId status).error = st.error ∧
    (handleNudgeAction false st nudgeId status).nudges = st.nudges ∧
    (handleNudgeAction false st nudgeId status).error =
      some "Failed to update request" := by
  refine ⟨?_, ?_, ?_, ?_, rfl, rfl, rfl⟩
  · simp [handleNudgeAction, updateNudgeList]
  · intro i hi hi' hid
    simp only [List.get_eq_getElem] at hid ⊢
    simp [handleNudgeAction, updateNudgeList, hid]
  · intro i hi hi' hid
    simp only [List.get_eq_getElem] at hid ⊢
    simp [handleNudgeAction, updateNudgeList, hid]
  · intro n
    simp

/-- Witness for C10: a two-nudge list where updating `"n1"` to `fulfilled`
changes only the first nudge. -/
theorem handleNudgeAction_frame_witness :
    (handleNudgeAction true
      ⟨[⟨"n1", "e1", "c", "Eng", none, NudgeStatus.pending, true, "t", "t", none⟩,
        ⟨"n2", "e2", "c", "PM", none, NudgeStatus.pending, true, "t", "t", none⟩],
       none⟩ "n1" NudgeStatus.fulfilled).nudges.length = 2 ∧
    (handleNudgeAction false
      ⟨[⟨"n1", "e1", "c", "Eng", none, NudgeStatus.pending, true, "t", "t", none⟩,
        ⟨"n2", "e2", "c", "PM", none, NudgeStatus.pending, true, "t", "t", none⟩],
       none⟩ "n1" NudgeStatus.fulfilled).error =
      some "Failed to update request" := by
  have h := handleNudgeAction_frame
    ⟨[⟨"n1", "e1", "c", "Eng", none, NudgeStatus.pending, true, "t", "t", none⟩,
      ⟨"n2", "e2", "c", "PM", none, NudgeStatus.pending, true, "t", "t", none⟩],
     none⟩ "n1" NudgeStatus.fulfilled
  exact ⟨h.1, h.2.2.2.2.2.2⟩

/-- C6: guide submission is rejected when a prerequisite is missing — no
upload is issued and the error is set — and when the existence check reports
an active Role with that name, the form asks for overwrite confirmation
instead of uploading; the confirmation button is what issues the upload. -/
theorem handleSubmit_guards (st : UploadFormState)
    (check : Except Unit RoleExistsCheck) :
    (st.file = none ∨ st.companyUrl = "" ∨ st.roleName = "" →
      handleSubmit st check =
        ({ st with error := some "Please fill in all fields and upload a file" },
         false)) ∧
    (st.file ≠ none → st.companyUrl ≠ "" → st.roleName ≠ "" →
      ∀ c, check = Except.ok c → c.exists_ = true →
        handleSubmit st check =
          ({ st with existingRoleDate := c.created_at
                     showConfirmOverwrite := true },
           false)) ∧
    confirmOverwriteClick st = (doUploadStart st, true) := by
  refine ⟨?_, ?_, rfl⟩
  · intro h
    unfold handleSubmit
    rw [if_pos h]
  · intro h1 h2 h3 c hc hex
    subst hc
    unfold handleSubmit
    rw [if_neg (by simp [h1, h2, h3])]
    simp [hex]

/-- Witness for C6: a submit with no file is rejected with the error message
and no upload; a complete submit whose check reports an existing role asks
for confirmation and issues no upload. -/
theorem handleSubmit_guards_witness :
    handleSubmit
      ⟨none, "https://a.com", "Eng", FormStatus.idle, none, false, none⟩
      (Except.ok ⟨false, none, none⟩) =
      (⟨none, "https://a.com", "Eng", FormStatus.idle,
        some "Please fill in all fields and upload a file", false, none⟩,
       false) ∧
    handleSubmit
      ⟨some "guide.pdf", "https://a.com", "Eng", FormStatus.idle, none, false,
        none⟩
      (Except.ok ⟨true, some "rid", some "2024-01-01"⟩) =
      (⟨some "guide.pdf", "https://a.com", "Eng", FormStatus.idle, none, true,
        some "2024-01-01"⟩,
       false) := by
  constructor
  · exact (handleSubmit_guards
      ⟨none, "https://a.com", "Eng", FormStatus.idle, none, false, none⟩
      (Except.ok ⟨false, none, none⟩)).1 (Or.inl rfl)
  · exact (handleSubmit_guards
      ⟨some "guide.pdf", "https://a.com", "Eng", FormStatus.idle, none, false,
        none⟩
      (Except.ok ⟨true, some "rid", some "2024-01-01"⟩)).2.1
      (by simp) (by decide) (by decide)
      ⟨true, some "rid", some "2024-01-01"⟩ rfl rfl

/-- Shared helper: the shape of `handleSubmit` when all prerequisites are
present and the existence check reports an active role. -/
theorem handleSubmit_guard_exists (st : UploadFormState) (c : RoleExistsCheck)
    (h1 : st.file ≠ none) (h2 : st.companyUrl ≠ "") (h3 : st.roleName ≠ "")
    (hex : c.exists_ = true) :
    handleSubmit st (Except.ok c) =
      ({ st with existingRoleDate := c.created_at
                 showConfirmOverwrite := true },
       false) := by
  unfold handleSubmit
  rw [if_neg (by simp [h1, h2, h3])]
  simp [hex]

/-- C7: the (spec-modelled) check-existence operation reports whether an
active Role with the given name exists, returning that role's identifier and
creation time, and the upload form stores that creation time and shows the
overwrite-confirmation prompt, whose date text is formatted from it. -/
theorem checkRoleExists_overwrite_flow (roles : List Role) (roleName : String)
    (st : UploadFormState) (fmtDate : String → String) :
    ((checkRoleExistsBackend roles roleName).exists_ = true ↔
       ∃ r ∈ roles, r.is_active = true ∧ r.name = roleName) ∧
    (∀ r, roles.find? (fun r => r.is_active && r.name = roleName) = some r →
       checkRoleExistsBackend roles roleName =
         ⟨true, some r.id, some r.created_at⟩) ∧
    (∀ c : RoleExistsCheck, st.file ≠ none → st.companyUrl ≠ "" →
       st.roleName ≠ "" → c.exists_ = true →
       (handleSubmit st (Except.ok c)).1.existingRoleDate = c.created_at ∧
       (handleSubmit st (Except.ok c)).1.showConfirmOverwrite = true) ∧
    (∀ d, overwritePromptDate fmtDate (some d) = fmtDate d) ∧
    overwritePromptDate fmtDate none = "a previous date" := by
  refine ⟨?_, ?_, ?_, fun d => rfl, rfl⟩
  · cases hf : roles.find? (fun r => r.is_active && r.name = roleName) with
    | none =>
        have hnone := List.find?_eq_none.mp hf
        simp only [checkRoleExistsBackend, hf]
        constructor
        · intro h
          simp at h
        · rintro ⟨r, hr, ha, hn⟩
          exact absurd (by simp [ha, hn]) (hnone r hr)
    | some r =>
        have hmem := List.mem_of_find?_eq_some hf
        have hp := List.find?_some hf
        simp only [Bool.and_eq_true, decide_eq_true_eq] at hp
        simp only [checkRoleExistsBackend, hf]
        constructor
        · intro _
          exact ⟨r, hmem, hp.1, hp.2⟩
        · intro _
          trivial
  · intro r hf
    simp [checkRoleExistsBackend, hf]
  · intro c h1 h2 h3 hex
    have h := (handleSubmit_guard_exists st c h1 h2 h3 hex)
    rw [h]
    exact ⟨rfl, rfl⟩

/-- Witness for C7: a concrete store with one active `"Eng"` role created at
`"2024-01-01"`; the check reports it and the form flow surfaces that date in
the prompt. -/
theorem checkRoleExists_overwrite_flow_witness :
    (checkRoleExistsBackend
      [⟨"r1", "c", "Eng", true, "2024-01-01", "2024-01-01"⟩] "Eng").exists_ =
      true ∧
    checkRoleExistsBackend
      [⟨"r1", "c", "Eng", true, "2024-01-01", "2024-01-01"⟩] "Eng" =
      ⟨true, some "r1", some "2024-01-01"⟩ ∧
    overwritePromptDate (fun d => d) (some "2024-01-01") = "2024-01-01" := by
  have h := checkRoleExists_overwrite_flow
    [⟨"r1", "c", "Eng", true, "2024-01-01", "2024-01-01"⟩] "Eng"
    ⟨some "guide.pdf", "https://a.com", "Eng", FormStatus.idle, none, false,
      none⟩
    (fun d => d)
  refine ⟨?_, ?_, h.2.2.2.1 "2024-01-01"⟩
  · exact h.1.mpr
      ⟨⟨"r1", "c", "Eng", true, "2024-01-01", "2024-01-01"⟩, by simp, rfl, rfl⟩
  · exact h.2.1 ⟨"r1", "c", "Eng", true, "2024-01-01", "2024-01-01"⟩ (by decide)

/-- Shared helper: when the string keys of the definitions do not collide
with the rendered pair's key, the `definitionMap` lookup coincides with the
last definition whose (level id, competency id) pair matches. -/
theorem definitionMapGet_eq_pair_filter (role : RoleDetail) (level : Level)
    (comp : Competency)
    (hkey : ∀ d ∈ role.definitions,
      defKey d.level_id d.competency_id = defKey level.id comp.id →
      d.level_id = level.id ∧ d.competency_id = comp.id) :
    definitionMapGet role.definitions (defKey level.id comp.id) =
      (role.definitions.filter
        (fun d => d.level_id = level.id && d.competency_id = comp.id)).getLast? := by
  unfold definitionMapGet
  congr 1
  apply List.filter_congr
  intro d hd
  by_cases hk : defKey d.level_id d.competency_id = defKey level.id comp.id
  · obtain ⟨h1, h2⟩ := hkey d hd hk
    simp [hk, h1, h2]
  · by_cases h1 : d.level_id = level.id
    · by_cases h2 : d.competency_id = comp.id
      · exact absurd (by rw [h1, h2]) hk
      · simp [hk, h2]
    · simp [hk, h1]

/-- Counterexample for C5 as stated: identifiers whose `${level_id}-${competency_id}`
keys collide make a cell with NO definition for its (level, competency) pair
render another pair's definition instead of the "No data" placeholder.  Here
the level id `"a-b"` and competency id `"c"` collide with a definition keyed
by level id `"a"` and competency id `"b-c"`. -/
theorem renderCell_key_collision_counterexample :
    hasDefinitionFor [⟨"d1", "a", "L1", "b-c", "Scope", "X", []⟩] "a-b" "c" =
      false ∧
    renderCell
      ⟨"r", "co", "Eng", true, "t", "t",
        [⟨"a-b", "co", "r", "L1", 0, true, "t", "t"⟩],
        [⟨"c", "co", "r", "Scope", 0, true, "t", "t"⟩],
        [⟨"d1", "a", "L1", "b-c", "Scope", "X", []⟩]⟩
      ⟨"a-b", "co", "r", "L1", 0, true, "t", "t"⟩
      ⟨"c", "co", "r", "Scope", 0, true, "t", "t"⟩ ≠ CellView.noData := by
  decide

/-- C5 (amended): provided the definitions' string keys do not collide with
the rendered pair's key, every (level, competency) cell of the grid renders
totally: the "No data" placeholder exactly when no definition exists for the
pair, and otherwise the definition's text, with the examples hint omitted
when the examples list is empty — an empty cell is data, not an error. -/
theorem renderCell_empty_examples_is_no_data (role : RoleDetail)
    (level : Level) (comp : Competency)
    (hkey : ∀ d ∈ role.definitions,
      defKey d.level_id d.competency_id = defKey level.id comp.id →
      d.level_id = level.id ∧ d.competency_id = comp.id) :
    (hasDefinitionFor role.definitions level.id comp.id = false →
      renderCell role level comp = CellView.noData) ∧
    (hasDefinitionFor role.definitions level.id comp.id = true →
      ∃ d ∈ role.definitions,
        d.level_id = level.id ∧ d.competency_id = comp.id ∧
        renderCell role level comp =
          CellView.cell d.definition
            (if 0 < d.examples.length then some d.examples.length else none) ∧
        (d.examples = [] →
          renderCell role level comp = CellView.cell d.definition none)) := by
  have hget := definitionMapGet_eq_pair_filter role level comp hkey
  constructor
  · intro hno
    simp only [hasDefinitionFor, List.any_eq_false, Bool.and_eq_true,
      decide_eq_true_eq, not_and] at hno
    have hempty : role.definitions.filter
        (fun d => d.level_id = level.id && d.competency_id = comp.id) = [] := by
      rw [List.filter_eq_nil_iff]
      intro a ha
      simp only [Bool.and_eq_true, decide_eq_true_eq, not_and]
      exact hno a ha
    unfold renderCell
    rw [hget, hempty]
    rfl
  · intro hyes
    simp only [hasDefinitionFor, List.any_eq_true, Bool.and_eq_true,
      decide_eq_true_eq] at hyes
    obtain ⟨x, hx, hx1, hx2⟩ := hyes
    have hne : role.definitions.filter
        (fun d => d.level_id = level.id && d.competency_id = comp.id) ≠ [] := by
      intro hnil
      rw [List.filter_eq_nil_iff] at hnil
      exact hnil x hx (by simp [hx1, hx2])
    set gl := (role.definitions.filter
      (fun d => d.level_id = level.id && d.competency_id = comp.id)).getLast hne
      with hgl
    have hlast : (role.definitions.filter
        (fun d => d.level_id = level.id &&
          d.competency_id = comp.id)).getLast? = some gl := by
      rw [hgl]
      exact List.getLast?_eq_getLast_of_ne_nil hne
    have hmemf : gl ∈ role.definitions.filter
        (fun d => d.level_id = level.id && d.competency_id = comp.id) := by
      rw [hgl]
      exact List.getLast_mem hne
    rw [List.mem_filter] at hmemf
    obtain ⟨hmem, hpred⟩ := hmemf
    simp only [Bool.and_eq_true, decide_eq_true_eq] at hpred
    refine ⟨gl, hmem, hpred.1, hpred.2, ?_, ?_⟩
    · unfold renderCell
      rw [hget, hlast]
    · intro hex
      unfold renderCell
      rw [hget, hlast]
      simp [hex]

/-- Witness for C5 (amended): a 1×2 grid with collision-free identifiers,
one cell holding a definition with zero examples (rendered as data with no
hint) and one cell with no definition (rendered as "No data"). -/
theorem renderCell_empty_examples_witness :
    renderCell
      ⟨"r", "co", "Eng", true, "t", "t",
        [⟨"l1", "co", "r", "L1", 0, true, "t", "t"⟩],
        [⟨"c1", "co", "r", "Scope", 0, true, "t", "t"⟩,
         ⟨"c2", "co", "r", "Comms", 1, true, "t", "t"⟩],
        [⟨"d1", "l1", "L1", "c1", "Scope", "Owns small tasks", []⟩]⟩
      ⟨"l1", "co", "r", "L1", 0, true, "t", "t"⟩
      ⟨"c1", "co", "r", "Scope", 0, true, "t", "t"⟩ =
      CellView.cell "Owns small tasks" none ∧
    renderCell
      ⟨"r", "co", "Eng", true, "t", "t",
        [⟨"l1", "co", "r", "L1", 0, true, "t", "t"⟩],
        [⟨"c1", "co", "r", "Scope", 0, true, "t", "t"⟩,
         ⟨"c2", "co", "r", "Comms", 1, true, "t", "t"⟩],
        [⟨"d1", "l1", "L1", "c1", "Scope", "Owns small tasks", []⟩]⟩
      ⟨"l1", "co", "r", "L1", 0, true, "t", "t"⟩
      ⟨"c2", "co", "r", "Comms", 1, true, "t", "t"⟩ = CellView.noData := by
  constructor
  · obtain ⟨d, hmem, h1, h2, hcell, hnil⟩ :=
      (renderCell_empty_examples_is_no_data
        ⟨"r", "co", "Eng", true, "t", "t",
          [⟨"l1", "co", "r", "L1", 0, true, "t", "t"⟩],
          [⟨"c1", "co", "r", "Scope", 0, true, "t", "t"⟩,
           ⟨"c2", "co", "r", "Comms", 1, true, "t", "t"⟩],
          [⟨"d1", "l1", "L1", "c1", "Scope", "Owns small tasks", []⟩]⟩
        ⟨"l1", "co", "r", "L1", 0, true, "t", "t"⟩
        ⟨"c1", "co", "r", "Scope", 0, true, "t", "t"⟩
        (by decide)).2 (by decide)
    have hd : d = ⟨"d1", "l1", "L1", "c1", "Scope", "Owns small tasks", []⟩ := by
      simpa using hmem
    rw [hnil (by rw [hd])]
    rw [hd]
  · exact (renderCell_empty_examples_is_no_data
      ⟨"r", "co", "Eng", true, "t", "t",
        [⟨"l1", "co", "r", "L1", 0, true, "t", "t"⟩],
        [⟨"c1", "co", "r", "Scope", 0, true, "t", "t"⟩,
         ⟨"c2", "co", "r", "Comms", 1, true, "t", "t"⟩],
        [⟨"d1", "l1", "L1", "c1", "Scope", "Owns small tasks", []⟩]⟩
      ⟨"l1", "co", "r", "L1", 0, true, "t", "t"⟩
      ⟨"c2", "co", "r", "Comms", 1, true, "t", "t"⟩
      (by decide)).1 (by decide)

/-- Shared helper: starting from an in-range position, the position computed
by `navigateModal` stays in range. -/
theorem navStep_lt (numLevels numComps levelIdx compIdx : Nat)
    (dir : NavDirection) (hL : levelIdx < numLevels)
    (hC : compIdx < numComps) :
    (navStep numLevels numComps levelIdx compIdx dir).1 < numLevels ∧
    (navStep numLevels numComps levelIdx compIdx dir).2 < numComps := by
  cases dir <;> simp only [navStep] <;> split_ifs <;>
    refine ⟨?_, ?_⟩ <;> simp <;> omega

/-- Shared helper: the wrap-around arithmetic of `navigateModal`: `next`
from the last level returns to the first level and advances the competency,
wrapping to the first competency after the last; `prev` symmetrically. -/
theorem navStep_wrap (numLevels numComps levelIdx compIdx : Nat)
    (hC : compIdx < numComps) :
    (levelIdx + 1 = numLevels →
      navStep numLevels numComps levelIdx compIdx NavDirection.next =
        (0, if compIdx + 1 = numComps then 0 else compIdx + 1)) ∧
    (levelIdx + 1 < numLevels →
      navStep numLevels numComps levelIdx compIdx NavDirection.next =
        (levelIdx + 1, compIdx)) ∧
    (levelIdx = 0 →
      navStep numLevels numComps levelIdx compIdx NavDirection.prev =
        (numLevels - 1,
         if compIdx = 0 then numComps - 1 else compIdx - 1)) ∧
    (0 < levelIdx →
      navStep numLevels numComps levelIdx compIdx NavDirection.prev =
        (levelIdx - 1, compIdx)) := by
  refine ⟨?_, ?_, ?_, ?_⟩
  · intro h
    simp only [navStep]
    rw [if_pos (by omega)]
    by_cases hc : compIdx + 1 = numComps
    · rw [if_pos (by omega), if_pos hc]
    · rw [if_neg (by omega), if_neg hc]
  · intro h
    simp only [navStep]
    rw [if_neg (by omega)]
  · intro h
    simp only [navStep]
    rw [if_pos h]
  · intro h
    simp only [navStep]
    rw [if_neg (by omega)]

/-- C9: from an in-range modal position, `navigateModal` never faults, keeps
the position in range, only ever installs a definition drawn from the Role's
definitions list (so the invariant that the modal displays a listed
definition is preserved), leaves the modal unchanged when the target pair
has no definition, and wraps: `next` from the last level goes to the first
level advancing the competency (wrapping after the last competency), and
`prev` symmetrically. -/
theorem navigateModal_stays_in_definitions (role : RoleDetail) (m : ModalData)
    (dir : NavDirection) (hL : m.levelIdx < role.levels.length)
    (hC : m.compIdx < role.competencies.length) :
    ∃ m', navigateModal role m dir = some m' ∧
      m'.levelIdx < role.levels.length ∧
      m'.compIdx < role.competencies.length ∧
      (m.definition ∈ role.definitions → m'.definition ∈ role.definitions) ∧
      (∀ newLevel newComp,
        role.levels.get? (navTarget role m dir).1 = some newLevel →
        role.competencies.get? (navTarget role m dir).2 = some newComp →
        findDefinition role.definitions newLevel.id newComp.id = none →
        m' = m) ∧
      (dir = NavDirection.next → m.levelIdx + 1 = role.levels.length →
        navTarget role m dir =
          (0, if m.compIdx + 1 = role.competencies.length then 0
              else m.compIdx + 1)) ∧
      (dir = NavDirection.next → m.levelIdx + 1 < role.levels.length →
        navTarget role m dir = (m.levelIdx + 1, m.compIdx)) ∧
      (dir = NavDirection.prev → m.levelIdx = 0 →
        navTarget role m dir =
          (role.levels.length - 1,
           if m.compIdx = 0 then role.competencies.length - 1
           else m.compIdx - 1)) ∧
      (dir = NavDirection.prev → 0 < m.levelIdx →
        navTarget role m dir = (m.levelIdx - 1, m.compIdx)) := by
  have hw := navStep_wrap role.levels.length role.competencies.length
    m.levelIdx m.compIdx hC
  have hb : (navTarget role m dir).1 < role.levels.length ∧
      (navTarget role m dir).2 < role.competencies.length :=
    navStep_lt role.levels.length role.competencies.length
      m.levelIdx m.compIdx dir hL hC
  have hlv : role.levels.get? (navTarget role m dir).1 =
      some (role.levels.get ⟨(navTarget role m dir).1, hb.1⟩) :=
    List.get?_eq_get hb.1
  have hcp : role.competencies.get? (navTarget role m dir).2 =
      some (role.competencies.get ⟨(navTarget role m dir).2, hb.2⟩) :=
    List.get?_eq_get hb.2
  have hwrap :
      (dir = NavDirection.next → m.levelIdx + 1 = role.levels.length →
        navTarget role m dir =
          (0, if m.compIdx + 1 = role.competencies.length then 0
              else m.compIdx + 1)) ∧
      (dir = NavDirection.next → m.levelIdx + 1 < role.levels.length →
        navTarget role m dir = (m.levelIdx + 1, m.compIdx)) ∧
      (dir = NavDirection.prev → m.levelIdx = 0 →
        navTarget role m dir =
          (role.levels.length - 1,
           if m.compIdx = 0 then role.competencies.length - 1
           else m.compIdx - 1)) ∧
      (dir = NavDirection.prev → 0 < m.levelIdx →
        navTarget role m dir = (m.levelIdx - 1, m.compIdx)) := by
    refine ⟨?_, ?_, ?_, ?_⟩
    · intro hdir h
      subst hdir
      exact hw.1 h
    · intro hdir h
      subst hdir
      exact hw.2.1 h
    · intro hdir h
      subst hdir
      exact hw.2.2.1 h
    · intro hdir h
      subst hdir
      exact hw.2.2.2 h
  cases hfd : findDefinition role.definitions
      (role.levels.get ⟨(navTarget role m dir).1, hb.1⟩).id
      (role.competencies.get ⟨(navTarget role m dir).2, hb.2⟩).id with
  | none =>
      refine ⟨m, ?_, hL, hC, fun h => h, fun _ _ _ _ _ => rfl,
        hwrap.1, hwrap.2.1, hwrap.2.2.1, hwrap.2.2.2⟩
      simp only [navigateModal, hlv, hcp, hfd]
  | some d =>
      refine ⟨⟨d, (role.levels.get ⟨(navTarget role m dir).1, hb.1⟩).name,
        (role.competencies.get ⟨(navTarget role m dir).2, hb.2⟩).name,
        (navTarget role m dir).1, (navTarget role m dir).2⟩, ?_,
        hb.1, hb.2, ?_, ?_,
        hwrap.1, hwrap.2.1, hwrap.2.2.1, hwrap.2.2.2⟩
      · simp only [navigateModal, hlv, hcp, hfd]
      · intro _
        exact List.mem_of_find?_eq_some hfd
      · intro nl nc hnl hnc hnone
        rw [hlv] at hnl
        rw [hcp] at hnc
        injection hnl with hnl
        injection hnc with hnc
        subst hnl
        subst hnc
        rw [hfd] at hnone
        exact Option.noConfusion hnone

/-- Witness for C9: a 2-level × 2-competency grid with a definition for
every pair; navigating `next` from the last level (position (1, 0)) yields a
new in-range modal rather than a fault. -/
theorem navigateModal_stays_in_definitions_witness :
    (navigateModal
      ⟨"r", "co", "Eng", true, "t", "t",
        [⟨"l1", "co", "r", "L1", 0, true, "t", "t"⟩,
         ⟨"l2", "co", "r", "L2", 1, true, "t", "t"⟩],
        [⟨"c1", "co", "r", "Scope", 0, true, "t", "t"⟩,
         ⟨"c2", "co", "r", "Comms", 1, true, "t", "t"⟩],
        [⟨"d11", "l1", "L1", "c1", "Scope", "A", []⟩,
         ⟨"d21", "l2", "L2", "c1", "Scope", "B", []⟩,
         ⟨"d12", "l1", "L1", "c2", "Comms", "C", []⟩,
         ⟨"d22", "l2", "L2", "c2", "Comms", "D", []⟩]⟩
      ⟨⟨"d21", "l2", "L2", "c1", "Scope", "B", []⟩, "L2", "Scope", 1, 0⟩
      NavDirection.next).isSome = true := by
  obtain ⟨m', hm', _⟩ := navigateModal_stays_in_definitions
    ⟨"r", "co", "Eng", true, "t", "t",
      [⟨"l1", "co", "r", "L1", 0, true, "t", "t"⟩,
       ⟨"l2", "co", "r", "L2", 1, true, "t", "t"⟩],
      [⟨"c1", "co", "r", "Scope", 0, true, "t", "t"⟩,
       ⟨"c2", "co", "r", "Comms", 1, true, "t", "t"⟩],
      [⟨"d11", "l1", "L1", "c1", "Scope", "A", []⟩,
       ⟨"d21", "l2", "L2", "c1", "Scope", "B", []⟩,
       ⟨"d12", "l1", "L1", "c2", "Comms", "C", []⟩,
       ⟨"d22", "l2", "L2", "c2", "Comms", "D", []⟩]⟩
    ⟨⟨"d21", "l2", "L2", "c1", "Scope", "B", []⟩, "L2", "Scope", 1, 0⟩
    NavDirection.next (by decide) (by decide)
  rw [hm']
  rfl

end LevelingGuide
